import Mathlib

/-
  Verification of the newsbot autonomous-operations core (news_bot.py).
  The Python functions are shallowly embedded as executable Lean functions;
  external collaborators (the generative service, json.loads, the Python
  compiler, git, SMTP, the database client) are modelled as explicit
  oracles/parameters, while all control flow, string processing and state
  mutation visible in the source is embedded concretely.
-/

namespace NewsBot

/-- Python-style whitespace test, used for str.strip and the regex class. -/
def isPySpace (c : Char) : Bool :=
  c = ' ' || c = '\t' || c = '\n' || c = '\r' || c = '\x0b' || c = '\x0c'

/-- str.strip on a character list. -/
def pyStripChars (cs : List Char) : List Char :=
  ((cs.dropWhile isPySpace).reverse.dropWhile isPySpace).reverse

/-- str.strip. -/
def pyStrip (s : String) : String := String.mk (pyStripChars s.data)

/-- Split on a newline character, keeping empty segments. -/
def splitLinesAux : List Char → List Char → List (List Char)
  | [], acc => [acc.reverse]
  | '\n' :: rest, acc => acc.reverse :: splitLinesAux rest []
  | c :: rest, acc => splitLinesAux rest (c :: acc)

/-- str.split on a newline. -/
def splitNl (cs : List Char) : List (List Char) := splitLinesAux cs []

/-- Join lines with a newline. -/
def joinNl : List (List Char) → List Char
  | [] => []
  | [l] => l
  | l :: ls => l ++ '\n' :: joinNl ls

/-- str.splitlines for newline-separated text: the trailing empty segment
    produced by a final newline is dropped, and the empty string yields no lines. -/
def pySplitlines (cs : List Char) : List (List Char) :=
  if cs.isEmpty then []
  else
    let segs := splitNl cs
    if segs.getLast? = some [] then segs.dropLast else segs

/-- Python substring test (the `in` operator on strings). -/
def containsSub (needle hay : List Char) : Bool :=
  (List.range (hay.length + 1)).any (fun i => needle.isPrefixOf (hay.drop i))

/-- The retryability test of the except branches: the text 429 occurs in the error. -/
def has429 (s : String) : Bool := containsSub "429".data s.data

/-- re.sub of one-to-three asterisks with the empty string removes every asterisk. -/
def stripStarsChars (cs : List Char) : List Char := cs.filter (fun c => c ≠ '*')

/-- re.sub of a line-leading run of one to six hash marks followed by whitespace. -/
def stripHeaderLine (cs : List Char) : List Char :=
  let hs := cs.takeWhile (fun c => c = '#')
  if 1 ≤ hs.length ∧ hs.length ≤ 6 then
    let rest := cs.drop hs.length
    let sp := rest.takeWhile isPySpace
    if sp.length = 0 then cs else rest.drop sp.length
  else cs

/-- re.sub of a line-leading digit run, a dot and whitespace. -/
def stripNumberLine (cs : List Char) : List Char :=
  let ds := cs.takeWhile Char.isDigit
  if ds.length = 0 then cs else
    match cs.drop ds.length with
    | '.' :: rest =>
        let sp := rest.takeWhile isPySpace
        if sp.length = 0 then cs else rest.drop sp.length
    | _ => cs

/-- re.sub of a line-leading bullet character followed by whitespace. -/
def stripBulletLine (cs : List Char) : List Char :=
  match cs with
  | c :: rest =>
      if c = '-' ∨ c = '*' ∨ c = '•' then
        let sp := rest.takeWhile isPySpace
        if sp.length = 0 then cs else rest.drop sp.length
      else cs
  | [] => cs

/-- Characters of the label-line character class: ASCII letters, Hangul
    syllables, whitespace, middle dot, hyphen and underscore. -/
def isLabelChar (c : Char) : Bool :=
  (('A' ≤ c && c ≤ 'Z') || ('a' ≤ c && c ≤ 'z')
    || (0xAC00 ≤ c.toNat && c.toNat ≤ 0xD7A3)
    || isPySpace c || c = '·' || c = '-' || c = '_')

/-- A stripped line consisting only of label characters, a colon and
    trailing whitespace, as matched by the label regex in strip_markdown. -/
def isLabelLine (cs : List Char) : Bool :=
  let pre := cs.takeWhile (fun c => c ≠ ':')
  match cs.drop pre.length with
  | ':' :: suf => (!pre.isEmpty) && pre.all isLabelChar && suf.all isPySpace
  | _ => false

/-- The line-cleaning loop of strip_markdown: drop label-only lines,
    collapse consecutive blank lines, keep stripped lines.  The accumulator
    is kept reversed so the last appended line is its head. -/
def cleanLinesAux : List (List Char) → List (List Char) → List (List Char)
  | [], acc => acc.reverse
  | l :: ls, acc =>
      let s := pyStripChars l
      if isLabelLine s then cleanLinesAux ls acc
      else if s.isEmpty && (match acc with | a :: _ => a.isEmpty | [] => false) then
        cleanLinesAux ls acc
      else cleanLinesAux ls (s :: acc)

/-- strip_markdown from news_bot.py: remove asterisks, line-leading headers,
    numbered-list and bullet prefixes, drop label-only lines, collapse blank
    lines, and strip the result. -/
def strip_markdown (text : String) : String :=
  let cs := stripStarsChars text.data
  let lines := (pySplitlines cs).map
    (fun l => stripBulletLine (stripNumberLine (stripHeaderLine l)))
  let cleaned := cleanLinesAux lines []
  String.mk (pyStripChars (joinNl cleaned))

/-- clean_role_name: remove asterisks and strip. -/
def clean_role_name (s : String) : String :=
  String.mk (pyStripChars (stripStarsChars s.data))

/-- First line, as indexing element zero of str.split on a newline. -/
def firstLineChars (cs : List Char) : List Char := cs.takeWhile (fun c => c ≠ '\n')

/-- Outcome of one generate_content attempt: the response text, or the
    message of the raised exception. -/
inductive GenOutcome where
  | ok (text : String)
  | err (msg : String)
deriving DecidableEq

/-- The retry loop of call_agent.  The fuel argument counts the remaining
    loop iterations (initially 3); the Python attempt index is 2 - fuel + 1.
    Cost recording is wrapped in a swallowing except in the source and has no
    effect on the returned value, so it is not part of the state here.
    The second component is the number of generation attempts made. -/
def call_agent_loop (fol : Bool) (gen : Nat → GenOutcome) : Nat → String × Nat
  | 0 => ("분석 지연 중", 3)
  | fuel + 1 =>
      let attempt := 2 - fuel
      match gen attempt with
      | .ok t =>
          let output := strip_markdown (pyStrip t)
          ((if fol then String.mk (firstLineChars output.data) else output), attempt + 1)
      | .err e =>
          if has429 e ∧ attempt < 2 then call_agent_loop fol gen fuel
          else ("분석 지연 중", attempt + 1)

/-- call_agent from news_bot.py.  fol is force_one_line; hasAgentInfo is the
    truthiness of agent_info.  Returns the result and the attempt count. -/
def call_agent (fol : Bool) (gen : Nat → GenOutcome) (hasAgentInfo : Bool) : String × Nat :=
  if hasAgentInfo then call_agent_loop fol gen 3 else ("분석 데이터 없음", 0)

/-- The structured result of call_agent_json, after the .get defaults. -/
structure AgentJson where
  summary : String
  points : List String
  deep : List String
deriving DecidableEq

/-- The fixed degraded sentinel of call_agent_json. -/
def jsonDelaySentinel : AgentJson := { summary := "분석 지연 중", points := [], deep := [] }

/-- The missing-agent sentinel of call_agent_json. -/
def jsonNoDataSentinel : AgentJson := { summary := "분석 데이터 없음", points := [], deep := [] }

/-- Strip a leading json code fence and trailing whitespace, per the first
    re.sub of call_agent_json. -/
def stripJsonFence (cs : List Char) : List Char :=
  if ("```json".data).isPrefixOf cs then (cs.drop 7).dropWhile isPySpace else cs

/-- Strip a trailing code fence preceded by whitespace, per the second re.sub. -/
def stripTrailFence (cs : List Char) : List Char :=
  if ("```".data).isSuffixOf cs then
    ((cs.take (cs.length - 3)).reverse.dropWhile isPySpace).reverse
  else cs

/-- Slice from the first opening brace to the last closing brace when both
    exist, exactly as raw.find and raw.rfind with Python slicing. -/
def braceSlice (cs : List Char) : List Char :=
  match cs.findIdx? (fun c => c = '{'), cs.reverse.findIdx? (fun c => c = '}') with
  | some i, some rj =>
      let j := cs.length - 1 - rj
      (cs.drop i).take (j + 1 - i)
  | _, _ => cs

/-- The raw-text preprocessing of call_agent_json before json.loads. -/
def jsonExtract (t : String) : String :=
  String.mk (braceSlice (pyStripChars (stripTrailFence (stripJsonFence (pyStripChars t.data)))))

/-- The final-parse-failure value of call_agent_json: the first eighty
    characters of the first line of the stripped raw text, markdown-stripped,
    with empty sub-collections. -/
def jsonFallback (t : String) : AgentJson :=
  { summary := strip_markdown (String.mk ((firstLineChars (pyStripChars t.data)).take 80)),
    points := [], deep := [] }

/-- The retry loop of call_agent_json.  jparse is the oracle for json.loads
    combined with the .get field extraction; parse failure is the
    JSONDecodeError branch. -/
def call_agent_json_loop (jparse : String → Option AgentJson) (gen : Nat → GenOutcome) :
    Nat → AgentJson × Nat
  | 0 => (jsonDelaySentinel, 3)
  | fuel + 1 =>
      let attempt := 2 - fuel
      match gen attempt with
      | .ok t =>
          match jparse (jsonExtract t) with
          | some p =>
              ({ summary := strip_markdown p.summary,
                 points := p.points.map strip_markdown,
                 deep := p.deep.map strip_markdown }, attempt + 1)
          | none =>
              if attempt = 2 then (jsonFallback t, attempt + 1)
              else call_agent_json_loop jparse gen fuel
      | .err e =>
          if has429 e ∧ attempt < 2 then call_agent_json_loop jparse gen fuel
          else (jsonDelaySentinel, attempt + 1)

/-- call_agent_json from news_bot.py. -/
def call_agent_json (jparse : String → Option AgentJson) (gen : Nat → GenOutcome)
    (hasAgentInfo : Bool) : AgentJson × Nat :=
  if hasAgentInfo then call_agent_json_loop jparse gen 3 else (jsonNoDataSentinel, 0)

theorem call_agent_loop_attempts_le (fol : Bool) (gen : Nat → GenOutcome) :
    ∀ fuel, (call_agent_loop fol gen fuel).2 ≤ 3 := by
  intro fuel
  induction fuel with
  | zero => simp [call_agent_loop]
  | succ f ih =>
      rw [call_agent_loop]
      cases gen (2 - f) with
      | ok t => simp only; omega
      | err e =>
          simp only
          split
          · exact ih
          · simp only; omega

theorem call_agent_json_loop_attempts_le (jparse : String → Option AgentJson)
    (gen : Nat → GenOutcome) :
    ∀ fuel, (call_agent_json_loop jparse gen fuel).2 ≤ 3 := by
  intro fuel
  induction fuel with
  | zero => simp [call_agent_json_loop]
  | succ f ih =>
      rw [call_agent_json_loop]
      cases gen (2 - f) with
      | ok t =>
          simp only
          cases jparse (jsonExtract t) with
          | some p => simp only; omega
          | none =>
              simp only
              split
              · simp only; omega
              · exact ih
      | err e =>
          simp only
          split
          · exact ih
          · simp only; omega

theorem call_agent_loop_allerr (fol : Bool) (gen : Nat → GenOutcome)
    (h : ∀ i, i < 3 → ∃ m, gen i = GenOutcome.err m) :
    ∀ fuel, fuel ≤ 3 → (call_agent_loop fol gen fuel).1 = "분석 지연 중" := by
  intro fuel
  induction fuel with
  | zero => intro _; simp [call_agent_loop]
  | succ f ih =>
      intro hf
      obtain ⟨m, hm⟩ := h (2 - f) (by omega)
      rw [call_agent_loop]
      simp only [hm]
      split
      · exact ih (by omega)
      · rfl

theorem call_agent_json_loop_allerr (jparse : String → Option AgentJson)
    (gen : Nat → GenOutcome)
    (h : ∀ i, i < 3 → ∃ m, gen i = GenOutcome.err m) :
    ∀ fuel, fuel ≤ 3 → (call_agent_json_loop jparse gen fuel).1 = jsonDelaySentinel := by
  intro fuel
  induction fuel with
  | zero => intro _; simp [call_agent_json_loop]
  | succ f ih =>
      intro hf
      obtain ⟨m, hm⟩ := h (2 - f) (by omega)
      rw [call_agent_json_loop]
      simp only [hm]
      split
      · exact ih (by omega)
      · rfl

theorem call_agent_json_loop_parsefail (jparse : String → Option AgentJson)
    (gen : Nat → GenOutcome) (t2 : String)
    (h : ∀ i, i < 3 → ∃ t, gen i = GenOutcome.ok t ∧ jparse (jsonExtract t) = none)
    (h2 : gen 2 = GenOutcome.ok t2) :
    (call_agent_json_loop jparse gen 3).1 = jsonFallback t2 := by
  obtain ⟨t0, hg0, hp0⟩ := h 0 (by omega)
  obtain ⟨t1, hg1, hp1⟩ := h 1 (by omega)
  obtain ⟨u, hg2, hp2⟩ := h 2 (by omega)
  have ht2 : u = t2 := by
    have hh : GenOutcome.ok u = GenOutcome.ok t2 := hg2.symm.trans h2
    exact (GenOutcome.ok.injEq _ _).mp hh
  subst ht2
  have e3 : call_agent_json_loop jparse gen 3 = call_agent_json_loop jparse gen (2 + 1) := rfl
  rw [e3, call_agent_json_loop]
  simp only [show (2 : Nat) - 2 = 0 from rfl, hg0, hp0]
  rw [if_neg (by omega)]
  have e2 : call_agent_json_loop jparse gen 2 = call_agent_json_loop jparse gen (1 + 1) := rfl
  rw [e2, call_agent_json_loop]
  simp only [show (2 : Nat) - 1 = 1 from rfl, hg1, hp1]
  rw [if_neg (by omega)]
  have e1 : call_agent_json_loop jparse gen 1 = call_agent_json_loop jparse gen (0 + 1) := rfl
  rw [e1, call_agent_json_loop]
  simp only [show (2 : Nat) - 0 = 2 from rfl, hg2, hp2]
  simp

/-- Claim C3, amended.  call_agent and call_agent_json make at most three
    generation attempts and always return a value: on a run in which every
    attempt raises (retryably or not) they return the fixed degraded
    sentinels, but when call_agent_json exhausts its attempts on JSON parse
    failures it returns a minimal structure built from the first line of the
    raw response text with empty sub-collections, not the fixed sentinel. -/
theorem resilient_invocation_bound_and_degradation
    (fol : Bool) (jparse : String → Option AgentJson) :
    (∀ gen hasInfo, (call_agent fol gen hasInfo).2 ≤ 3
        ∧ (call_agent_json jparse gen hasInfo).2 ≤ 3)
    ∧ (∀ gen, (∀ i, i < 3 → ∃ m, gen i = GenOutcome.err m) →
        (call_agent fol gen true).1 = "분석 지연 중"
        ∧ (call_agent_json jparse gen true).1 = jsonDelaySentinel)
    ∧ (∀ gen t2, (∀ i, i < 3 → ∃ t, gen i = GenOutcome.ok t ∧ jparse (jsonExtract t) = none) →
        gen 2 = GenOutcome.ok t2 →
        (call_agent_json jparse gen true).1 = jsonFallback t2) := by
  refine ⟨?_, ?_, ?_⟩
  · intro gen hasInfo
    cases hasInfo with
    | false => simp [call_agent, call_agent_json]
    | true =>
        exact ⟨call_agent_loop_attempts_le fol gen 3,
          call_agent_json_loop_attempts_le jparse gen 3⟩
  · intro gen h
    exact ⟨call_agent_loop_allerr fol gen h 3 (by omega),
      call_agent_json_loop_allerr jparse gen h 3 (by omega)⟩
  · intro gen t2 h h2
    exact call_agent_json_loop_parsefail jparse gen t2 h h2

/-- Claim C3, counterexample to the claim as stated: when every generation
    attempt succeeds but the response never parses as JSON, the attempts are
    exhausted and the returned value is built from the raw text, not the
    fixed degraded sentinel. -/
theorem resilient_invocation_counterexample :
    (call_agent_json (fun _ => none) (fun _ => GenOutcome.ok "hello world") true).2 = 3
    ∧ (call_agent_json (fun _ => none) (fun _ => GenOutcome.ok "hello world") true).1
        ≠ jsonDelaySentinel
    ∧ (call_agent_json (fun _ => none) (fun _ => GenOutcome.ok "hello world") true).1
        = { summary := "hello world", points := [], deep := [] } := by
  refine ⟨by decide, by decide, by decide⟩

/-- Witness for the amended claim C3 at concrete inputs. -/
theorem resilient_invocation_witness :
    (call_agent false (fun _ => GenOutcome.err "got 429 from server") true).1 = "분석 지연 중"
    ∧ (call_agent_json (fun _ => none) (fun _ => GenOutcome.ok "no json here") true).1
        = jsonFallback "no json here" := by
  constructor
  · exact ((resilient_invocation_bound_and_degradation false (fun _ => none)).2.1
      (fun _ => GenOutcome.err "got 429 from server")
      (fun i _ => ⟨"got 429 from server", rfl⟩)).1
  · exact (resilient_invocation_bound_and_degradation false (fun _ => none)).2.2
      (fun _ => GenOutcome.ok "no json here") "no json here"
      (fun i _ => ⟨"no json here", rfl, rfl⟩) rfl

/-- A row of the code_backups store, as inserted by run_self_evolution. -/
structure BackupRow where
  file_path : String
  code : String
deriving DecidableEq

/-- The dev_backlog fields consumed by run_self_evolution.  affected_file is
    none when the row has no such column, in which case the source falls back
    to news_bot.py. -/
structure DevTaskRow where
  status : String
  affected_file : Option String
deriving DecidableEq

/-- The observable state touched by run_self_evolution: the artifact file at
    the task's path, the code_backups store, the local backups directory, the
    task's dev_backlog status, and the number of invocations of the git add,
    git commit and git push commands. -/
structure DevState where
  artifact : String
  code_backups : List BackupRow
  local_backups : List String
  task_status : String
  git_add_calls : Nat
  git_commit_calls : Nat
  git_push_calls : Nat
deriving DecidableEq

/-- Oracles for the external effects of run_self_evolution: whether the
    code_backups insert succeeds, the raw generative response, the code-block
    extraction applied to it (the re.search over the response, an external
    regex engine here), the Python compile check, and the outcomes of the git
    commands.  gitAddOk covers the two git config commands and git add, which
    all precede the commit.  The local timestamped copy and the notification
    emails are modelled as non-failing; their failures are swallowed or land
    in the same outer except branch as a git failure. -/
structure DevEnv where
  backupOk : Bool
  genRaw : String
  extract : String → String
  pyCompiles : String → Bool
  gitAddOk : Bool
  gitCommitOk : Bool
  gitPushOk : Bool

/-- os.path.basename for slash-separated paths. -/
def basename (p : String) : String :=
  String.mk ((p.data.reverse.takeWhile (fun c => c ≠ '/')).reverse)

/-- str.upper for ASCII status strings. -/
def pyUpper (s : String) : String := String.mk (s.data.map Char.toUpper)

/-- The required top-level signatures checked by _validate_generated_code. -/
def requiredSignatures : List String :=
  ["def run_autonomous_engine(", "def run_agent_initiative(", "if __name__ == \"__main__\":"]

/-- The validator _validate_generated_code from news_bot.py: compile the candidate, and
    when the target file is news_bot.py additionally require the fixed
    top-level signatures and at least 300 lines.  Returns the message of the
    raised exception, or none on success. -/
def _validate_generated_code (pyCompiles : String → Bool) (file_path new_code : String) :
    Option String :=
  if ¬ pyCompiles new_code then some "SyntaxError"
  else if basename file_path ≠ "news_bot.py" then none
  else
    let missing := requiredSignatures.filter (fun sig => ¬ containsSub sig.data new_code.data)
    if ¬ missing.isEmpty then some ("핵심 구조 누락: " ++ String.intercalate ", " missing)
    else if (pySplitlines new_code.data).length < 300 then
      some "핵심 런타임 코드가 비정상적으로 축소되어 배포 차단"
    else none

/-- The outer except branch of run_self_evolution: set DEPLOY_FAILED and,
    when cur_code and file_path are truthy, rewrite the artifact with the
    pre-image. -/
def devFail (s : DevState) (cur_code file_path : String) : DevState :=
  let s1 := { s with task_status := "DEPLOY_FAILED" }
  if cur_code ≠ "" ∧ file_path ≠ "" then { s1 with artifact := cur_code } else s1

/-- run_self_evolution from news_bot.py, for the run in which the dev_backlog
    row for backlog_id is task (none when the select returns no row): guard on
    the id and the task status, read the pre-image, insert the durable backup
    (aborting with BACKUP_FAILED on failure), write the local copy, generate
    and extract the candidate, validate it (rolling back to the pre-image and
    setting VALIDATION_ERROR on failure, before any git command), else write
    the candidate and run git add, commit and push, any failure of which lands
    in the outer except branch; on success the status becomes DEPLOYED. -/
def run_self_evolution (env : DevEnv) (backlog_id : String) (task : Option DevTaskRow)
    (s : DevState) : DevState :=
  if backlog_id = "" then s
  else
    match task with
    | none => s
    | some t =>
        if pyUpper t.status = "CONFIRMED" ∨ pyUpper t.status = "DEVELOPING" then
          let file_path := t.affected_file.getD "news_bot.py"
          let cur_code := s.artifact
          if env.backupOk then
            let s1 := { s with
              code_backups := s.code_backups ++ [BackupRow.mk file_path cur_code],
              local_backups := s.local_backups ++ [cur_code] }
            let new_code := env.extract env.genRaw
            match _validate_generated_code env.pyCompiles file_path new_code with
            | some _ => { s1 with artifact := cur_code, task_status := "VALIDATION_ERROR" }
            | none =>
                let s2 := { s1 with artifact := new_code, git_add_calls := s1.git_add_calls + 1 }
                if env.gitAddOk then
                  let s3 := { s2 with git_commit_calls := s2.git_commit_calls + 1 }
                  if env.gitCommitOk then
                    let s4 := { s3 with git_push_calls := s3.git_push_calls + 1 }
                    if env.gitPushOk then { s4 with task_status := "DEPLOYED" }
                    else devFail s4 cur_code file_path
                  else devFail s3 cur_code file_path
                else devFail s2 cur_code file_path
          else { s with task_status := "BACKUP_FAILED" }
        else s

/-- Claim C1.  When the backup succeeds and the generated candidate fails
    validation, the artifact after the run is byte-identical to the artifact
    before, the task status becomes VALIDATION_ERROR, and no git add, commit
    or push command is ever invoked. -/
theorem validation_gate_rollback (env : DevEnv) (bid : String) (t : DevTaskRow) (s : DevState)
    (hbid : bid ≠ "")
    (hst : pyUpper t.status = "CONFIRMED" ∨ pyUpper t.status = "DEVELOPING")
    (hbk : env.backupOk = true)
    (hval : _validate_generated_code env.pyCompiles (t.affected_file.getD "news_bot.py")
        (env.extract env.genRaw) ≠ none) :
    (run_self_evolution env bid (some t) s).artifact = s.artifact
    ∧ (run_self_evolution env bid (some t) s).task_status = "VALIDATION_ERROR"
    ∧ (run_self_evolution env bid (some t) s).git_add_calls = s.git_add_calls
    ∧ (run_self_evolution env bid (some t) s).git_commit_calls = s.git_commit_calls
    ∧ (run_self_evolution env bid (some t) s).git_push_calls = s.git_push_calls := by
  obtain ⟨m, hm⟩ := Option.ne_none_iff_exists'.mp hval
  rcases hst with h | h <;>
    simp [run_self_evolution, hbid, hbk, hm, h]

/-- Concrete deployment environment whose candidate fails the compile check. -/
def devEnvC1 : DevEnv :=
  { backupOk := true, genRaw := "x = (", extract := id,
    pyCompiles := fun _ => false, gitAddOk := true, gitCommitOk := true, gitPushOk := true }

/-- Concrete confirmed task with the default target file. -/
def devTask0 : DevTaskRow := { status := "CONFIRMED", affected_file := none }

/-- Concrete pre-run state of the deployment engine. -/
def devState0 : DevState :=
  { artifact := "print(1)", code_backups := [], local_backups := [],
    task_status := "CONFIRMED", git_add_calls := 0, git_commit_calls := 0, git_push_calls := 0 }

/-- Witness for claim C1 at a concrete failing candidate. -/
theorem validation_gate_rollback_witness :
    (run_self_evolution devEnvC1 "task-7" (some devTask0) devState0).artifact = devState0.artifact
    ∧ (run_self_evolution devEnvC1 "task-7" (some devTask0) devState0).task_status
        = "VALIDATION_ERROR"
    ∧ (run_self_evolution devEnvC1 "task-7" (some devTask0) devState0).git_add_calls
        = devState0.git_add_calls
    ∧ (run_self_evolution devEnvC1 "task-7" (some devTask0) devState0).git_commit_calls
        = devState0.git_commit_calls
    ∧ (run_self_evolution devEnvC1 "task-7" (some devTask0) devState0).git_push_calls
        = devState0.git_push_calls :=
  validation_gate_rollback devEnvC1 "task-7" devTask0 devState0
    (by decide) (Or.inl (by decide)) rfl (by decide)

theorem devFail_code_backups (s : DevState) (cur fp : String) :
    (devFail s cur fp).code_backups = s.code_backups := by
  rw [devFail]; split <;> rfl

/-- Claim C2.  Whenever a run of run_self_evolution changes the artifact in
    any way, the pre-image has been persisted to the code_backups store; and
    when the durable backup insert fails on an eligible task, the run ends
    immediately with only the status changed to BACKUP_FAILED — the artifact,
    the stores and the git counters are untouched. -/
theorem backup_before_mutate (env : DevEnv) (bid : String) (task : Option DevTaskRow)
    (s : DevState) :
    ((run_self_evolution env bid task s).artifact ≠ s.artifact →
      ∃ b ∈ (run_self_evolution env bid task s).code_backups, b.code = s.artifact)
    ∧ (∀ t, task = some t → bid ≠ "" →
        (pyUpper t.status = "CONFIRMED" ∨ pyUpper t.status = "DEVELOPING") →
        env.backupOk = false →
        run_self_evolution env bid task s = { s with task_status := "BACKUP_FAILED" }) := by
  constructor
  · intro hmut
    by_cases hbid : bid = ""
    · simp [run_self_evolution, hbid] at hmut
    · cases task with
      | none => simp [run_self_evolution, hbid] at hmut
      | some t =>
          by_cases hst : pyUpper t.status = "CONFIRMED" ∨ pyUpper t.status = "DEVELOPING"
          · by_cases hbk : env.backupOk
            · refine ⟨BackupRow.mk (t.affected_file.getD "news_bot.py") s.artifact, ?_, rfl⟩
              cases hv : _validate_generated_code env.pyCompiles
                  (t.affected_file.getD "news_bot.py") (env.extract env.genRaw) with
              | some m => simp [run_self_evolution, hbid, hst, hbk, hv]
              | none =>
                  by_cases g1 : env.gitAddOk <;> by_cases g2 : env.gitCommitOk <;>
                    by_cases g3 : env.gitPushOk <;>
                    simp [run_self_evolution, hbid, hst, hbk, hv, g1, g2, g3,
                      devFail_code_backups]
            · simp [run_self_evolution, hbid, hst, hbk] at hmut
          · simp [run_self_evolution, hbid, hst] at hmut
  · intro t ht hbid hst hbk
    subst ht
    rcases hst with h | h <;> simp [run_self_evolution, hbid, h, hbk]

/-- Concrete deployment environment whose durable backup insert fails. -/
def devEnvC2 : DevEnv :=
  { backupOk := false, genRaw := "", extract := id,
    pyCompiles := fun _ => true, gitAddOk := true, gitCommitOk := true, gitPushOk := true }

/-- Witness for claim C2 at a concrete failing backup. -/
theorem backup_before_mutate_witness :
    run_self_evolution devEnvC2 "task-9" (some devTask0) devState0
      = { devState0 with task_status := "BACKUP_FAILED" } :=
  (backup_before_mutate devEnvC2 "task-9" (some devTask0) devState0).2 devTask0 rfl
    (by decide) (Or.inl (by decide)) rfl

/-- Claim C4, amended.  When the candidate passes validation and the git
    commands succeed, the candidate is written as the new artifact content,
    git add, commit and push are each invoked exactly once, and the task's
    status is set to DEPLOYED (not COMPLETED); the commit and push are not
    guarded by any comparison of the candidate with the pre-image, so no
    no-op skip exists. -/
theorem deploy_success_path (env : DevEnv) (bid : String) (t : DevTaskRow) (s : DevState)
    (hbid : bid ≠ "")
    (hst : pyUpper t.status = "CONFIRMED" ∨ pyUpper t.status = "DEVELOPING")
    (hbk : env.backupOk = true)
    (hval : _validate_generated_code env.pyCompiles (t.affected_file.getD "news_bot.py")
        (env.extract env.genRaw) = none)
    (g1 : env.gitAddOk = true) (g2 : env.gitCommitOk = true) (g3 : env.gitPushOk = true) :
    (run_self_evolution env bid (some t) s).artifact = env.extract env.genRaw
    ∧ (run_self_evolution env bid (some t) s).task_status = "DEPLOYED"
    ∧ (run_self_evolution env bid (some t) s).git_add_calls = s.git_add_calls + 1
    ∧ (run_self_evolution env bid (some t) s).git_commit_calls = s.git_commit_calls + 1
    ∧ (run_self_evolution env bid (some t) s).git_push_calls = s.git_push_calls + 1 := by
  rcases hst with h | h <;> simp [run_self_evolution, hbid, hbk, hval, g1, g2, g3, h]

/-- Concrete developing task whose target is not the primary entry point. -/
def devTaskC4 : DevTaskRow := { status := "DEVELOPING", affected_file := some "helper.py" }

/-- Concrete environment for a fully successful deployment of a changed candidate. -/
def devEnvC4a : DevEnv :=
  { backupOk := true, genRaw := "import os", extract := id,
    pyCompiles := fun _ => true, gitAddOk := true, gitCommitOk := true, gitPushOk := true }

/-- Concrete environment whose candidate is byte-identical to the pre-image
    and whose git commit fails, as a real git commit with nothing staged does. -/
def devEnvC4b : DevEnv :=
  { backupOk := true, genRaw := "print(1)", extract := id,
    pyCompiles := fun _ => true, gitAddOk := true, gitCommitOk := false, gitPushOk := true }

/-- Claim C4, counterexample to the claim as stated: a validated deployment
    ends with status DEPLOYED, never COMPLETED; and a candidate byte-identical
    to the pre-image still reaches git add and git commit (no no-op skip), so
    the task again does not end COMPLETED. -/
theorem deploy_status_counterexample :
    ((run_self_evolution devEnvC4a "task-3" (some devTaskC4) devState0).task_status = "DEPLOYED"
      ∧ (run_self_evolution devEnvC4a "task-3" (some devTaskC4) devState0).task_status
          ≠ "COMPLETED")
    ∧ (devEnvC4b.extract devEnvC4b.genRaw = devState0.artifact
      ∧ (run_self_evolution devEnvC4b "task-3" (some devTaskC4) devState0).git_add_calls = 1
      ∧ (run_self_evolution devEnvC4b "task-3" (some devTaskC4) devState0).git_commit_calls = 1
      ∧ (run_self_evolution devEnvC4b "task-3" (some devTaskC4) devState0).task_status
          ≠ "COMPLETED") := by
  refine ⟨⟨by decide, by decide⟩, by decide, by decide, by decide, by decide⟩

/-- Witness for the amended claim C4 at a concrete successful deployment. -/
theorem deploy_success_path_witness :
    (run_self_evolution devEnvC4a "task-3" (some devTaskC4) devState0).artifact
      = devEnvC4a.extract devEnvC4a.genRaw
    ∧ (run_self_evolution devEnvC4a "task-3" (some devTaskC4) devState0).task_status = "DEPLOYED"
    ∧ (run_self_evolution devEnvC4a "task-3" (some devTaskC4) devState0).git_add_calls
        = devState0.git_add_calls + 1
    ∧ (run_self_evolution devEnvC4a "task-3" (some devTaskC4) devState0).git_commit_calls
        = devState0.git_commit_calls + 1
    ∧ (run_self_evolution devEnvC4a "task-3" (some devTaskC4) devState0).git_push_calls
        = devState0.git_push_calls + 1 :=
  deploy_success_path devEnvC4a "task-3" devTaskC4 devState0
    (by decide) (Or.inr (by decide)) rfl (by decide) rfl rfl rfl

/-- A pending_approvals row. -/
structure ProposalRow where
  pid : Nat
  agent_role : String
  proposed_instruction : String
  proposal_reason : String
  needs_dev : Bool
  status : String
deriving DecidableEq

/-- An agents row, with the fields touched by governance. -/
structure AgentRow where
  role : String
  instruction : String
deriving DecidableEq

/-- A dev_backlog row, with the fields written by governance. -/
structure BacklogRow where
  title : String
  task_detail : String
  affected_file : String
  priority : Nat
  status : String
  source_approval_id : Option Nat
deriving DecidableEq

/-- The stores touched by manage_deadline_approvals. -/
structure GovState where
  approvals : List ProposalRow
  agents : List AgentRow
  dev_backlog : List BacklogRow
deriving DecidableEq

/-- Python slicing of the first fifty characters. -/
def take50 (s : String) : String := String.mk (s.data.take 50)

/-- The backlog row auto-registered for an approved proposal. -/
def autoBacklogRow (item : ProposalRow) : BacklogRow :=
  { title := "[자동등록] " ++ item.agent_role ++ " — " ++ take50 item.proposal_reason,
    task_detail := item.proposed_instruction,
    affected_file := "news_bot.py",
    priority := 10,
    status := "PENDING_MASTER",
    source_approval_id := some item.pid }

/-- One iteration of the deadline-approval loop of manage_deadline_approvals:
    overwrite the agent-role's instruction, set the proposal's status to
    APPROVED and, when needs_dev is set, insert the auto backlog row unless a
    row with this source_approval_id already exists (the dedup check runs
    against the store as it is at this point of the loop).  The database
    calls are modelled as succeeding; a raised call aborts the surrounding
    try and only shortens the run. -/
def approveItem (s : GovState) (item : ProposalRow) : GovState :=
  let agents1 := s.agents.map (fun a =>
    if a.role = item.agent_role then { a with instruction := item.proposed_instruction } else a)
  let approvals1 := s.approvals.map (fun p =>
    if p.pid = item.pid then { p with status := "APPROVED" } else p)
  let s1 := { s with agents := agents1, approvals := approvals1 }
  if item.needs_dev then
    if (s1.dev_backlog.filter (fun b => b.source_approval_id = some item.pid)).isEmpty then
      { s1 with dev_backlog := s1.dev_backlog ++ [autoBacklogRow item] }
    else s1
  else s1

/-- manage_deadline_approvals from news_bot.py: after the 23:30 cutoff,
    fetch the snapshot of PENDING proposals and run the approval loop over
    it; before the cutoff the call is a no-op. -/
def manage_deadline_approvals (hour minute : Nat) (s : GovState) : GovState :=
  if hour = 23 ∧ 30 ≤ minute then
    (s.approvals.filter (fun p => p.status = "PENDING")).foldl approveItem s
  else s

/-- Re-running the governance pass at each of a list of times. -/
def governancePasses (times : List (Nat × Nat)) (s : GovState) : GovState :=
  times.foldl (fun st tm => manage_deadline_approvals tm.1 tm.2 st) s

/-- The number of dev_backlog rows referencing a given source proposal id. -/
def backlogCountFor (pid : Nat) (s : GovState) : Nat :=
  (s.dev_backlog.filter (fun b => b.source_approval_id = some pid)).length

theorem approveItem_countFor_le (pid : Nat) (s : GovState) (item : ProposalRow)
    (h : backlogCountFor pid s ≤ 1) :
    backlogCountFor pid (approveItem s item) ≤ 1 := by
  rw [approveItem]
  by_cases hnd : item.needs_dev
  · simp only [hnd, if_true]
    by_cases hdup :
        ((s.dev_backlog.filter (fun b => b.source_approval_id = some item.pid)).isEmpty : Bool)
    · simp only [hdup, if_true]
      unfold backlogCountFor at h ⊢
      simp only [List.filter_append, List.length_append]
      by_cases hpid : item.pid = pid
      · subst hpid
        have h0 : (s.dev_backlog.filter
            (fun b => b.source_approval_id = some item.pid)).length = 0 := by
          rw [List.isEmpty_iff] at hdup
          simp [hdup]
        simp only [h0, Nat.zero_add]
        simp [autoBacklogRow]
      · have h1 : ([autoBacklogRow item].filter
            (fun b => b.source_approval_id = some pid)).length = 0 := by
          simp [autoBacklogRow, hpid]
        omega
    · simpa only [hdup, if_false, backlogCountFor] using h
  · simpa only [hnd, if_false, backlogCountFor] using h

theorem foldl_approveItem_countFor_le (pid : Nat) :
    ∀ (items : List ProposalRow) (s : GovState), backlogCountFor pid s ≤ 1 →
      backlogCountFor pid (items.foldl approveItem s) ≤ 1 := by
  intro items
  induction items with
  | nil => intro s h; exact h
  | cons it rest ih =>
      intro s h
      exact ih (approveItem s it) (approveItem_countFor_le pid s it h)

theorem manage_countFor_le (hour minute : Nat) (pid : Nat) (s : GovState)
    (h : backlogCountFor pid s ≤ 1) :
    backlogCountFor pid (manage_deadline_approvals hour minute s) ≤ 1 := by
  rw [manage_deadline_approvals]
  split
  · exact foldl_approveItem_countFor_le pid _ s h
  · exact h

/-- Claim C7.  Starting from a state with no dev_backlog row referencing a
    proposal id, any number of governance deadline passes, at any times,
    leaves at most one dev_backlog row referencing that id: the dedup check
    on the stored source id runs before every insert. -/
theorem governance_backlog_dedup (times : List (Nat × Nat)) (s : GovState) (pid : Nat)
    (h : backlogCountFor pid s = 0) :
    backlogCountFor pid (governancePasses times s) ≤ 1 := by
  have h1 : backlogCountFor pid s ≤ 1 := by omega
  rw [governancePasses]
  clear h
  induction times generalizing s with
  | nil => exact h1
  | cons tm rest ih =>
      exact ih (manage_deadline_approvals tm.1 tm.2 s) (manage_countFor_le tm.1 tm.2 pid s h1)

theorem approveItem_approvals_eq (s : GovState) (q : ProposalRow) :
    (approveItem s q).approvals = s.approvals.map (fun p =>
      if p.pid = q.pid then { p with status := "APPROVED" } else p) := by
  rw [approveItem]
  by_cases hnd : q.needs_dev <;> simp only [hnd, if_true, if_false]
  · split <;> rfl
  · rfl

theorem approveItem_backlog_eq (s : GovState) (q : ProposalRow) :
    (approveItem s q).dev_backlog = s.dev_backlog
    ∨ (approveItem s q).dev_backlog = s.dev_backlog ++ [autoBacklogRow q] := by
  rw [approveItem]
  by_cases hnd : q.needs_dev <;> simp only [hnd, if_true, if_false]
  · split
    · right; rfl
    · left; rfl
  · left; rfl

theorem approveItem_keeps_approved (s : GovState) (q : ProposalRow) (r : ProposalRow)
    (hr : r ∈ s.approvals) (hst : r.status = "APPROVED") :
    r ∈ (approveItem s q).approvals := by
  rw [approveItem_approvals_eq]
  have himg : (if r.pid = q.pid then { r with status := "APPROVED" } else r) = r := by
    split
    · cases r; simp_all
    · rfl
  have h2 := List.mem_map_of_mem
    (fun p => if p.pid = q.pid then { p with status := "APPROVED" } else p) hr
  simpa [himg] using h2

theorem approveItem_inv (s : GovState) (q : ProposalRow) (p : ProposalRow)
    (h : p ∈ s.approvals ∨ { p with status := "APPROVED" } ∈ s.approvals) :
    p ∈ (approveItem s q).approvals
      ∨ { p with status := "APPROVED" } ∈ (approveItem s q).approvals := by
  rcases h with h | h
  · have h2 := List.mem_map_of_mem
      (fun r => if r.pid = q.pid then { r with status := "APPROVED" } else r) h
    by_cases hp : p.pid = q.pid
    · right; rw [approveItem_approvals_eq]; simpa [hp] using h2
    · left; rw [approveItem_approvals_eq]; simpa [hp] using h2
  · right
    exact approveItem_keeps_approved s q _ h rfl

theorem approveItem_self (s : GovState) (p : ProposalRow)
    (h : p ∈ s.approvals ∨ { p with status := "APPROVED" } ∈ s.approvals) :
    { p with status := "APPROVED" } ∈ (approveItem s p).approvals := by
  rcases h with h | h
  · rw [approveItem_approvals_eq]
    have h2 := List.mem_map_of_mem
      (fun r => if r.pid = p.pid then { r with status := "APPROVED" } else r) h
    simpa using h2
  · exact approveItem_keeps_approved s p _ h rfl

theorem approveItem_backlog_mono (s : GovState) (q : ProposalRow) (b : BacklogRow)
    (hb : b ∈ s.dev_backlog) : b ∈ (approveItem s q).dev_backlog := by
  rcases approveItem_backlog_eq s q with he | he <;> rw [he]
  · exact hb
  · exact List.mem_append_left _ hb

theorem approveItem_backlog_ref (s : GovState) (p : ProposalRow) (hnd : p.needs_dev = true) :
    ∃ b ∈ (approveItem s p).dev_backlog, b.source_approval_id = some p.pid := by
  rw [approveItem]
  simp only [hnd, if_true]
  by_cases hdup :
      ((s.dev_backlog.filter (fun b => b.source_approval_id = some p.pid)).isEmpty : Bool)
  · rw [if_pos hdup]
    exact ⟨autoBacklogRow p, List.mem_append_right _ (List.mem_singleton_self _), rfl⟩
  · rw [if_neg hdup]
    have hne : s.dev_backlog.filter (fun b => b.source_approval_id = some p.pid) ≠ [] := by
      intro hcon
      apply hdup
      rw [hcon]
      rfl
    obtain ⟨b, hb⟩ := List.exists_mem_of_ne_nil _ hne
    exact ⟨b, List.mem_of_mem_filter hb, by simpa using List.of_mem_filter hb⟩

theorem approveItem_no_executed (s : GovState) (q : ProposalRow)
    (h : ∀ r ∈ s.approvals, r.status ≠ "EXECUTED") :
    ∀ r ∈ (approveItem s q).approvals, r.status ≠ "EXECUTED" := by
  intro r hr
  rw [approveItem_approvals_eq] at hr
  obtain ⟨p, hp, hpe⟩ := List.mem_map.mp hr
  subst hpe
  split
  · intro hcon
    have hss : ("APPROVED" : String) = "EXECUTED" := hcon
    exact absurd hss (by decide)
  · exact h p hp

theorem foldl_approveItem_approved (p : ProposalRow) :
    ∀ (items : List ProposalRow) (s : GovState),
      { p with status := "APPROVED" } ∈ s.approvals →
      { p with status := "APPROVED" } ∈ (items.foldl approveItem s).approvals := by
  intro items
  induction items with
  | nil => intro s h; exact h
  | cons it rest ih =>
      intro s h
      exact ih (approveItem s it) (approveItem_keeps_approved s it _ h rfl)

theorem foldl_approveItem_backlog (P : BacklogRow → Prop) :
    ∀ (items : List ProposalRow) (s : GovState),
      (∃ b ∈ s.dev_backlog, P b) →
      ∃ b ∈ (items.foldl approveItem s).dev_backlog, P b := by
  intro items
  induction items with
  | nil => intro s h; exact h
  | cons it rest ih =>
      intro s h
      obtain ⟨b, hb, hPb⟩ := h
      exact ih (approveItem s it) ⟨b, approveItem_backlog_mono s it b hb, hPb⟩

theorem foldl_approveItem_reaches (p : ProposalRow) :
    ∀ (items : List ProposalRow) (s : GovState), p ∈ items →
      (p ∈ s.approvals ∨ { p with status := "APPROVED" } ∈ s.approvals) →
      { p with status := "APPROVED" } ∈ (items.foldl approveItem s).approvals
      ∧ (p.needs_dev = true →
          ∃ b ∈ (items.foldl approveItem s).dev_backlog,
            b.source_approval_id = some p.pid) := by
  intro items
  induction items with
  | nil => intro s h; cases h
  | cons it rest ih =>
      intro s hmem hinv
      rcases List.mem_cons.mp hmem with heq | htail
      · subst heq
        constructor
        · exact foldl_approveItem_approved p rest _ (approveItem_self s p hinv)
        · intro hnd
          exact foldl_approveItem_backlog _ rest _ (approveItem_backlog_ref s p hnd)
      · exact ih (approveItem s it) htail (approveItem_inv s it p hinv)

theorem foldl_approveItem_no_executed :
    ∀ (items : List ProposalRow) (s : GovState),
      (∀ r ∈ s.approvals, r.status ≠ "EXECUTED") →
      ∀ r ∈ (items.foldl approveItem s).approvals, r.status ≠ "EXECUTED" := by
  intro items
  induction items with
  | nil => intro s h; exact h
  | cons it rest ih =>
      intro s h
      exact ih (approveItem s it) (approveItem_no_executed s it h)

/-- Claim C6, amended.  After the 23:30 cutoff, every PENDING proposal
    processed by manage_deadline_approvals ends in status APPROVED — the
    code's terminal state, there being no transition to EXECUTED anywhere —
    with its follow-on backlog row present when needs_dev is set; and no
    proposal ever acquires the status EXECUTED. -/
theorem deadline_pass_final_status (hour minute : Nat) (s : GovState) (p : ProposalRow)
    (hd : hour = 23 ∧ 30 ≤ minute)
    (hp : p ∈ s.approvals) (hst : p.status = "PENDING") :
    { p with status := "APPROVED" }
        ∈ (manage_deadline_approvals hour minute s).approvals
    ∧ (p.needs_dev = true →
        ∃ b ∈ (manage_deadline_approvals hour minute s).dev_backlog,
          b.source_approval_id = some p.pid)
    ∧ ((∀ r ∈ s.approvals, r.status ≠ "EXECUTED") →
        ∀ r ∈ (manage_deadline_approvals hour minute s).approvals,
          r.status ≠ "EXECUTED") := by
  have hsnap : p ∈ s.approvals.filter (fun q => q.status = "PENDING") := by
    rw [List.mem_filter]
    exact ⟨hp, by simp [hst]⟩
  rw [manage_deadline_approvals, if_pos hd]
  obtain ⟨h1, h2⟩ := foldl_approveItem_reaches p _ s hsnap (Or.inl hp)
  exact ⟨h1, h2, fun hne => foldl_approveItem_no_executed _ s hne⟩

/-- Concrete pending proposal requiring engineering follow-up. -/
def proposalC6 : ProposalRow :=
  { pid := 7, agent_role := "BA", proposed_instruction := "새 지침",
    proposal_reason := "VOC", needs_dev := true, status := "PENDING" }

/-- Concrete agents row targeted by the proposal. -/
def agentC6 : AgentRow := { role := "BA", instruction := "기존 지침" }

/-- Concrete governance state with one pending proposal requiring follow-up. -/
def govStateC6 : GovState :=
  { approvals := [proposalC6], agents := [agentC6], dev_backlog := [] }

/-- Claim C6, counterexample to the claim as stated: after the deadline pass
    applies the downstream effects of the proposal, its status is APPROVED —
    not the claimed terminal state EXECUTED. -/
theorem deadline_pass_counterexample :
    ((manage_deadline_approvals 23 30 govStateC6).approvals.map
        (fun p => p.status)) = ["APPROVED"]
    ∧ ((manage_deadline_approvals 23 30 govStateC6).dev_backlog.map
        (fun b => b.source_approval_id)) = [some 7]
    ∧ "APPROVED" ≠ "EXECUTED" := by
  refine ⟨by decide, by decide, by decide⟩

/-- Witness for the amended claim C6 at the concrete pending proposal. -/
theorem deadline_pass_final_status_witness :
    { proposalC6 with status := "APPROVED" }
      ∈ (manage_deadline_approvals 23 45 govStateC6).approvals
    ∧ (∃ b ∈ (manage_deadline_approvals 23 45 govStateC6).dev_backlog,
        b.source_approval_id = some 7) := by
  have h := deadline_pass_final_status 23 45 govStateC6 proposalC6
    (by omega) (by decide) rfl
  exact ⟨h.1, h.2.1 rfl⟩

/-- Witness for claim C7: two consecutive deadline passes over a state with
    a pending follow-up proposal create at most one referencing backlog row. -/
theorem governance_backlog_dedup_witness :
    backlogCountFor 7 (governancePasses [(23, 30), (23, 59)] govStateC6) ≤ 1 :=
  governance_backlog_dedup [(23, 30), (23, 59)] govStateC6 7 (by decide)

/-- A user_settings row, with the fields the dispatcher reads. -/
structure UserRow where
  uid : Nat
  email : String
  keywords : List String
deriving DecidableEq

/-- A reports row, with the fields governing skip, persistence and the
    delivery-confirmation flag. -/
structure ReportRow where
  rid : Nat
  user_id : Nat
  email_sent : Bool
deriving DecidableEq

/-- The observable state of one dispatcher run: the reports store, the list
    of (consumer, topic) work items whose processing was started, and the
    consumers for which an email delivery was attempted. -/
structure EngineState where
  reports : List ReportRow
  topicCalls : List (Nat × String)
  sendAttempts : List Nat
deriving DecidableEq

/-- Oracles for run_autonomous_engine.  processTopic is the body of the
    per-keyword loop (source collection, summarization and analysis calls),
    which contains operations that can raise — for instance the unguarded
    dict indexing of the BRIEF/BA/STOCK/PM agents and the unguarded GNews
    fallback call; an error value is such an exception.  persistReport is the
    reports upsert: an error is a raised persistence failure, and a success
    carries the row id assigned by the store together with the truthiness of
    res.data.  sendOk is the boolean outcome of send_email_report, which
    catches its own exceptions; flagUpdateOk tells whether any of the three
    email_sent update attempts succeeds. -/
structure EngineEnv where
  processTopic : Nat → String → Except String String
  persistReport : Nat → Except String (Nat × Bool)
  sendOk : Nat → Bool
  flagUpdateOk : Nat → Bool

/-- The skip check of the dispatcher: the first reports row of the consumer
    has its delivery-confirmation flag set. -/
def alreadySent (s : EngineState) (u : Nat) : Bool :=
  match s.reports.find? (fun r => r.user_id = u) with
  | some r => r.email_sent
  | none => false

/-- The per-keyword loop of run_autonomous_engine.  Each iteration starts
    the topic's collection/analysis calls (recorded in topicCalls) and then
    either completes or raises; there is no try/except at this level, so an
    error stops the loop.  The boolean tells whether the loop completed. -/
def processTopics (env : EngineEnv) (u : Nat) :
    List String → EngineState → EngineState × Bool
  | [], s => (s, true)
  | w :: ws, s =>
      let s1 := { s with topicCalls := s.topicCalls ++ [(u, w)] }
      match env.processTopic u w with
      | .ok _ => processTopics env u ws s1
      | .error _ => (s1, false)

/-- The reports upsert keyed on (user_id, report_date): a fresh row starts
    with the delivery flag unset; a conflicting row keeps its id and flag
    (only the content column, untracked here, is rewritten). -/
def upsertReport (s : EngineState) (u : Nat) (rid : Nat) : EngineState :=
  if (s.reports.find? (fun r => r.user_id = u)).isSome then s
  else { s with reports := s.reports ++ [ReportRow.mk rid u false] }

/-- The row id returned by the upsert: the existing row's id on conflict,
    else the freshly assigned one. -/
def reportIdFor (s : EngineState) (u : Nat) (rid : Nat) : Nat :=
  match s.reports.find? (fun r => r.user_id = u) with
  | some r => r.rid
  | none => rid

/-- The email_sent update targeting the returned report id. -/
def setEmailSent (s : EngineState) (targetRid : Nat) (v : Bool) : EngineState :=
  { s with reports := s.reports.map (fun r =>
      if r.rid = targetRid then { r with email_sent := v } else r) }

/-- The persistence-and-delivery tail of the per-consumer body: upsert the
    report (a raised upsert aborts the consumer before any delivery), and if
    res.data is truthy, attempt delivery and then update the email_sent flag
    with the confirmed outcome (when some update attempt succeeds). -/
def persistAndSend (env : EngineEnv) (u : Nat) (s : EngineState) : EngineState :=
  match env.persistReport u with
  | .error _ => s
  | .ok (rid, hasData) =>
      let target := reportIdFor s u rid
      let s2 := upsertReport s u rid
      if hasData then
        let s3 := { s2 with sendAttempts := s2.sendAttempts ++ [u] }
        if env.flagUpdateOk u then setEmailSent s3 target (env.sendOk u) else s3
      else s2

/-- The per-consumer body of run_autonomous_engine, including the per-user
    try/except: the first five keywords are processed in order, an exception
    in any topic abandons the rest of this consumer's body (caught by the
    per-user except), and a completed loop proceeds to persistence and
    delivery.  Users without keywords and users whose report is already
    flagged as delivered are skipped. -/
def processUser (env : EngineEnv) (s : EngineState) (user : UserRow) : EngineState :=
  let kws := user.keywords.take 5
  if kws.isEmpty then s
  else if alreadySent s user.uid then s
  else
    let res := processTopics env user.uid kws s
    if res.2 then persistAndSend env user.uid res.1 else res.1

/-- The consumer loop of run_autonomous_engine.  The end-of-run statistics,
    data sync and initiative steps do not touch the state tracked here. -/
def run_autonomous_engine (env : EngineEnv) (users : List UserRow) (s : EngineState) :
    EngineState :=
  users.foldl (processUser env) s

theorem processTopics_ok (env : EngineEnv) (u : Nat) :
    ∀ (ws : List String) (s : EngineState),
      (∀ w ∈ ws, ∃ v, env.processTopic u w = Except.ok v) →
      processTopics env u ws s
        = ({ s with topicCalls := s.topicCalls ++ ws.map (fun w => (u, w)) }, true) := by
  intro ws
  induction ws with
  | nil => intro s h; simp [processTopics]
  | cons w rest ih =>
      intro s h
      obtain ⟨v, hv⟩ := h w (List.mem_cons_self w rest)
      rw [processTopics]
      simp only [hv]
      rw [ih _ (fun x hx => h x (List.mem_cons_of_mem w hx))]
      simp

theorem processTopics_err (env : EngineEnv) (u : Nat) :
    ∀ (pre : List String) (w : String) (post : List String) (s : EngineState) (e : String),
      (∀ x ∈ pre, ∃ v, env.processTopic u x = Except.ok v) →
      env.processTopic u w = Except.error e →
      processTopics env u (pre ++ w :: post) s
        = ({ s with topicCalls := s.topicCalls ++ (pre ++ [w]).map (fun x => (u, x)) },
            false) := by
  intro pre
  induction pre with
  | nil =>
      intro w post s e _ hw
      rw [List.nil_append, processTopics]
      simp [hw]
  | cons x rest ih =>
      intro w post s e hpre hw
      obtain ⟨v, hv⟩ := hpre x (List.mem_cons_self x rest)
      rw [List.cons_append, processTopics]
      simp only [hv]
      rw [ih w post _ e (fun y hy => hpre y (List.mem_cons_of_mem x hy)) hw]
      simp

theorem processTopics_reports (env : EngineEnv) (u : Nat) :
    ∀ (ws : List String) (s : EngineState),
      (processTopics env u ws s).1.reports = s.reports
      ∧ (processTopics env u ws s).1.sendAttempts = s.sendAttempts := by
  intro ws
  induction ws with
  | nil => intro s; exact ⟨rfl, rfl⟩
  | cons w rest ih =>
      intro s
      rw [processTopics]
      cases env.processTopic u w with
      | ok v => exact ih _
      | error e => exact ⟨rfl, rfl⟩

theorem alreadySent_congr (s1 s2 : EngineState) (u : Nat) (h : s1.reports = s2.reports) :
    alreadySent s1 u = alreadySent s2 u := by
  rw [alreadySent, alreadySent, h]

theorem mem_upsertReport (s : EngineState) (u rid : Nat) (r : ReportRow)
    (hr : r ∈ (upsertReport s u rid).reports) :
    r ∈ s.reports ∨ r = ReportRow.mk rid u false := by
  rw [upsertReport] at hr
  split at hr
  · exact Or.inl hr
  · rcases List.mem_append.mp hr with h | h
    · exact Or.inl h
    · exact Or.inr (List.mem_singleton.mp h)

theorem upsertReport_mem_of_mem (s : EngineState) (u rid : Nat) (r : ReportRow)
    (hr : r ∈ s.reports) : r ∈ (upsertReport s u rid).reports := by
  rw [upsertReport]
  split
  · exact hr
  · exact List.mem_append_left _ hr

theorem mem_setEmailSent (s : EngineState) (t : Nat) (v : Bool) (r : ReportRow)
    (hr : r ∈ (setEmailSent s t v).reports) :
    ∃ q ∈ s.reports, r = q ∨ r = { q with email_sent := v } := by
  rw [setEmailSent] at hr
  obtain ⟨q, hq, hqe⟩ := List.mem_map.mp hr
  refine ⟨q, hq, ?_⟩
  by_cases hrid : q.rid = t
  · right; rw [← hqe]; simp [hrid]
  · left; rw [← hqe]; simp [hrid]

theorem persistAndSend_err (env : EngineEnv) (u : Nat) (s : EngineState) (e : String)
    (h : env.persistReport u = Except.error e) : persistAndSend env u s = s := by
  rw [persistAndSend, h]

theorem persistAndSend_sendfail (env : EngineEnv) (u : Nat) (s : EngineState) (rid : Nat)
    (hp : env.persistReport u = Except.ok (rid, true))
    (hs : env.sendOk u = false)
    (hns : alreadySent s u = false) :
    ∃ r ∈ (persistAndSend env u s).reports, r.user_id = u ∧ r.email_sent = false := by
  rw [persistAndSend, hp]
  simp only
  cases hf : s.reports.find? (fun r => r.user_id = u) with
  | some r0 =>
      have hmem : r0 ∈ s.reports := List.mem_of_find?_eq_some hf
      have hr0u : r0.user_id = u := by simpa using List.find?_some hf
      have he0 : r0.email_sent = false := by
        rw [alreadySent, hf] at hns
        exact hns
      simp only [reportIdFor, upsertReport, hf, Option.isSome_some, if_true, setEmailSent, hs]
      by_cases hfl : env.flagUpdateOk u
      · simp only [hfl, if_true]
        refine ⟨{ r0 with email_sent := false }, ?_, hr0u, rfl⟩
        have h2 := List.mem_map_of_mem
          (fun r => if r.rid = r0.rid then { r with email_sent := false } else r) hmem
        simpa using h2
      · simp only [hfl, if_false]
        exact ⟨r0, hmem, hr0u, he0⟩
  | none =>
      simp only [reportIdFor, upsertReport, hf, Option.isSome_none, Bool.false_eq_true,
        if_false, setEmailSent, hs]
      by_cases hfl : env.flagUpdateOk u
      · simp only [hfl, if_true]
        refine ⟨ReportRow.mk rid u false, ?_, rfl, rfl⟩
        have hmem : ReportRow.mk rid u false ∈ s.reports ++ [ReportRow.mk rid u false] :=
          List.mem_append_right _ (List.mem_singleton_self _)
        have h2 := List.mem_map_of_mem
          (fun r => if r.rid = rid then { r with email_sent := false } else r) hmem
        simp only [if_pos rfl] at h2
        exact h2
      · simp only [hfl, if_false]
        exact ⟨ReportRow.mk rid u false,
          List.mem_append_right _ (List.mem_singleton_self _), rfl, rfl⟩

theorem persistAndSend_flag_origin (env : EngineEnv) (u : Nat) (s : EngineState) :
    ∀ r ∈ (persistAndSend env u s).reports, r.email_sent = true →
      r ∈ s.reports ∨ env.sendOk u = true := by
  intro r hr he
  rw [persistAndSend] at hr
  cases hp : env.persistReport u with
  | error e => rw [hp] at hr; exact Or.inl hr
  | ok pair =>
      obtain ⟨rid, hasData⟩ := pair
      rw [hp] at hr
      simp only at hr
      have fromUpsert : r ∈ (upsertReport s u rid).reports → r ∈ s.reports ∨
          env.sendOk u = true := by
        intro hm
        rcases mem_upsertReport s u rid r hm with h | h
        · exact Or.inl h
        · rw [h] at he; cases he
      cases hasData with
      | false => exact fromUpsert hr
      | true =>
          simp only [if_true] at hr
          by_cases hfl : env.flagUpdateOk u
          · simp only [hfl, if_true] at hr
            obtain ⟨q, hq, hcase⟩ := mem_setEmailSent _ _ _ r hr
            rcases hcase with hrq | hrq
            · exact fromUpsert (by rw [hrq]; exact hq)
            · right
              rw [hrq] at he
              exact he
          · simp only [hfl, if_false] at hr
            exact fromUpsert hr

theorem persistAndSend_frame (env : EngineEnv) (u : Nat) (s : EngineState)
    (hwf : ∀ r1 ∈ s.reports, ∀ r2 ∈ s.reports, r1.rid = r2.rid → r1.user_id = r2.user_id)
    (hfresh : ∀ rid b, env.persistReport u = Except.ok (rid, b) →
        ∀ r ∈ s.reports, r.rid = rid → r.user_id = u) :
    ∀ r ∈ s.reports, r.user_id ≠ u → r ∈ (persistAndSend env u s).reports := by
  intro r hr hne
  rw [persistAndSend]
  cases hp : env.persistReport u with
  | error e => exact hr
  | ok pair =>
      obtain ⟨rid, hasData⟩ := pair
      simp only
      have hup : r ∈ (upsertReport s u rid).reports := upsertReport_mem_of_mem s u rid r hr
      have htarget : ¬ r.rid = reportIdFor s u rid := by
        rw [reportIdFor]
        cases hf : s.reports.find? (fun q => q.user_id = u) with
        | some r2 =>
            have hr2mem := List.mem_of_find?_eq_some hf
            have hr2u : r2.user_id = u := by simpa using List.find?_some hf
            intro hcon
            exact hne ((hwf r hr r2 hr2mem hcon).trans hr2u)
        | none =>
            intro hcon
            exact hne (hfresh rid hasData hp r hr hcon)
      cases hasData with
      | false => exact hup
      | true =>
          simp only [if_true]
          by_cases hfl : env.flagUpdateOk u
          · simp only [hfl, if_true, setEmailSent]
            have h2 := List.mem_map_of_mem
              (fun q => if q.rid = reportIdFor s u rid
                then { q with email_sent := env.sendOk u } else q) hup
            simpa [htarget] using h2
          · simp only [hfl, if_false]
            exact hup

theorem persistAndSend_topicCalls (env : EngineEnv) (u : Nat) (s : EngineState) :
    (persistAndSend env u s).topicCalls = s.topicCalls := by
  rw [persistAndSend]
  cases hp : env.persistReport u with
  | error e => rfl
  | ok pair =>
      obtain ⟨rid, hasData⟩ := pair
      simp only
      have hup : (upsertReport s u rid).topicCalls = s.topicCalls := by
        rw [upsertReport]; split <;> rfl
      cases hasData with
      | false => exact hup
      | true =>
          simp only [if_true]
          by_cases hfl : env.flagUpdateOk u
          · simp only [hfl, if_true, setEmailSent]
            exact hup
          · simp only [hfl, if_false]
            exact hup

/-- Claim C5, amended.  Exceptions in topic processing are caught at the
    consumer level, not at topic granularity: for an active consumer all of
    whose topics succeed, every one of its (at most five) topics is
    processed, while an exception at topic w abandons that consumer's
    remaining topics after processing only the topics up to and including w;
    the consumer loop itself always runs to the end, so every further
    consumer is still processed. -/
theorem dispatcher_consumer_isolation (env : EngineEnv) :
    (∀ (user : UserRow) (s : EngineState),
      (user.keywords.take 5).isEmpty = false →
      alreadySent s user.uid = false →
      ((∀ w ∈ user.keywords.take 5, ∃ v, env.processTopic user.uid w = Except.ok v) →
        (processUser env s user).topicCalls
          = s.topicCalls ++ (user.keywords.take 5).map (fun w => (user.uid, w)))
      ∧ (∀ (pre : List String) (w : String) (post : List String) (e : String),
          user.keywords.take 5 = pre ++ w :: post →
          (∀ x ∈ pre, ∃ v, env.processTopic user.uid x = Except.ok v) →
          env.processTopic user.uid w = Except.error e →
          (processUser env s user).topicCalls
            = s.topicCalls ++ (pre ++ [w]).map (fun x => (user.uid, x))))
    ∧ (∀ (us1 us2 : List UserRow) (s : EngineState),
        run_autonomous_engine env (us1 ++ us2) s
          = run_autonomous_engine env us2 (run_autonomous_engine env us1 s)) := by
  constructor
  · intro user s hne hns
    constructor
    · intro hok
      rw [processUser]
      simp only [hne, hns, Bool.false_eq_true, if_false]
      rw [processTopics_ok env user.uid (user.keywords.take 5) s hok]
      simp [persistAndSend_topicCalls]
    · intro pre w post e hsplit hpre hw
      rw [processUser]
      simp only [hne, hns, Bool.false_eq_true, if_false]
      rw [hsplit, processTopics_err env user.uid pre w post s e hpre hw]
      simp
  · intro us1 us2 s
    rw [run_autonomous_engine, run_autonomous_engine, run_autonomous_engine,
      List.foldl_append]

/-- Concrete dispatcher environment in which consumer 1's first topic raises. -/
def engEnvC5 : EngineEnv :=
  { processTopic := fun u w =>
      if u = 1 ∧ w = "a" then Except.error "boom" else Except.ok "r",
    persistReport := fun u => Except.ok (100 + u, true),
    sendOk := fun _ => true,
    flagUpdateOk := fun _ => true }

/-- Concrete consumer with two topics, the first of which raises. -/
def engUser1 : UserRow := { uid := 1, email := "one", keywords := ["a", "b"] }

/-- Concrete second consumer with one topic. -/
def engUser2 : UserRow := { uid := 2, email := "two", keywords := ["c"] }

/-- Concrete empty pre-run dispatcher state. -/
def engState0 : EngineState := { reports := [], topicCalls := [], sendAttempts := [] }

/-- Claim C5, counterexample to the claim as stated: over K = 3 topics the
    exception at consumer 1's topic a stops that consumer's topic loop, so
    topic b is never processed; only 2 of the 3 topics run (the second
    consumer is unaffected). -/
theorem dispatcher_topic_isolation_counterexample :
    engEnvC5.processTopic 1 "a" = Except.error "boom"
    ∧ (run_autonomous_engine engEnvC5 [engUser1, engUser2] engState0).topicCalls
        = [(1, "a"), (2, "c")]
    ∧ (1, "b") ∉ (run_autonomous_engine engEnvC5 [engUser1, engUser2] engState0).topicCalls := by
  refine ⟨rfl, by decide, by decide⟩

/-- Concrete dispatcher environment in which every call succeeds. -/
def engEnvOk : EngineEnv :=
  { processTopic := fun _ _ => Except.ok "r",
    persistReport := fun u => Except.ok (100 + u, true),
    sendOk := fun _ => true,
    flagUpdateOk := fun _ => true }

/-- Concrete consumer with two topics, all succeeding. -/
def engUser5 : UserRow := { uid := 5, email := "five", keywords := ["a", "b"] }

/-- Witness for the amended claim C5: with every topic succeeding, the
    consumer's whole topic list is processed. -/
theorem dispatcher_consumer_isolation_witness :
    (processUser engEnvOk engState0 engUser5).topicCalls
      = engState0.topicCalls
        ++ (engUser5.keywords.take 5).map (fun w => (engUser5.uid, w)) :=
  ((dispatcher_consumer_isolation engEnvOk).1 engUser5 engState0 (by decide)
    (by decide)).1 (fun w _ => ⟨"r", rfl⟩)

/-- Claim C9.  With report ids unique and the freshly assigned id new, for an
    active consumer whose topics all succeed: a raised report upsert leaves
    the stores untouched and skips delivery; a persisted report followed by a
    failed delivery stays persisted with its delivery-confirmation flag
    unset, so the consumer is retried on the next run; every report whose
    flag is set either predates this consumer's step or had a confirmed
    successful send; and other consumers' rows are untouched. -/
theorem report_email_independence (env : EngineEnv) (user : UserRow) (s : EngineState)
    (hne : (user.keywords.take 5).isEmpty = false)
    (hns : alreadySent s user.uid = false)
    (hok : ∀ w ∈ user.keywords.take 5, ∃ v, env.processTopic user.uid w = Except.ok v)
    (hwf : ∀ r1 ∈ s.reports, ∀ r2 ∈ s.reports, r1.rid = r2.rid → r1.user_id = r2.user_id)
    (hfresh : ∀ rid b, env.persistReport user.uid = Except.ok (rid, b) →
        ∀ r ∈ s.reports, r.rid = rid → r.user_id = user.uid) :
    (∀ e, env.persistReport user.uid = Except.error e →
      (processUser env s user).reports = s.reports
      ∧ (processUser env s user).sendAttempts = s.sendAttempts)
    ∧ (∀ rid, env.persistReport user.uid = Except.ok (rid, true) →
        env.sendOk user.uid = false →
        ∃ r ∈ (processUser env s user).reports,
          r.user_id = user.uid ∧ r.email_sent = false)
    ∧ (∀ r ∈ (processUser env s user).reports, r.email_sent = true →
        r ∈ s.reports ∨ env.sendOk user.uid = true)
    ∧ (∀ r ∈ s.reports, r.user_id ≠ user.uid → r ∈ (processUser env s user).reports) := by
  have hrun : processUser env s user = persistAndSend env user.uid
      { s with topicCalls :=
          s.topicCalls ++ (user.keywords.take 5).map (fun w => (user.uid, w)) } := by
    rw [processUser]
    simp only [hne, hns, Bool.false_eq_true, if_false]
    rw [processTopics_ok env user.uid (user.keywords.take 5) s hok]
    simp
  refine ⟨?_, ?_, ?_, ?_⟩
  · intro e hp
    rw [hrun, persistAndSend_err env user.uid _ e hp]
    exact ⟨rfl, rfl⟩
  · intro rid hp hsend
    rw [hrun]
    exact persistAndSend_sendfail env user.uid _ rid hp hsend hns
  · intro r hr he
    rw [hrun] at hr
    exact persistAndSend_flag_origin env user.uid
      { s with topicCalls :=
          s.topicCalls ++ (user.keywords.take 5).map (fun w => (user.uid, w)) } r hr he
  · intro r hr hneq
    rw [hrun]
    exact persistAndSend_frame env user.uid
      { s with topicCalls :=
          s.topicCalls ++ (user.keywords.take 5).map (fun w => (user.uid, w)) }
      hwf hfresh r hr hneq

/-- Concrete dispatcher environment whose delivery fails after persistence. -/
def engEnvC9 : EngineEnv :=
  { processTopic := fun _ _ => Except.ok "r",
    persistReport := fun u => Except.ok (40 + u, true),
    sendOk := fun _ => false,
    flagUpdateOk := fun _ => true }

/-- Concrete consumer for the delivery-failure scenario. -/
def engUserC9 : UserRow := { uid := 3, email := "three", keywords := ["k"] }

/-- Witness for claim C9 at a concrete failed delivery: the persisted report
    remains, with the confirmation flag unset. -/
theorem report_email_independence_witness :
    ∃ r ∈ (processUser engEnvC9 engState0 engUserC9).reports,
      r.user_id = engUserC9.uid ∧ r.email_sent = false := by
  have h := report_email_independence engEnvC9 engUserC9 engState0 (by decide) (by decide)
    (fun w _ => ⟨"r", rfl⟩)
    (by intro r1 h1; exact absurd h1 (List.not_mem_nil r1))
    (by intro rid b hpb r hr; exact absurd hr (List.not_mem_nil r))
  exact h.2.1 43 rfl rfl

/-- Modelled from the spec: one element of the batch summarizer response,
    carrying the explicit per-element index field.  The repository's src
    contains no batch summarizer implementation (the dispatcher makes per-item
    calls), so this component is taken from the specification of
    summarizeBatch. -/
structure BatchEntry where
  index : Nat
  summary : String
  impact : String
deriving DecidableEq

/-- Modelled from the spec: the empty placeholder filled in for a missing index. -/
def emptyBatchEntry (i : Nat) : BatchEntry := { index := i, summary := "", impact := "" }

/-- Modelled from the spec: the length-repair step of summarizeBatch — when
    the response length differs from the input length n, re-index the entries
    by their index field and fill every missing index with the empty
    placeholder, so that the output length is always exactly n. -/
def repairBatch (n : Nat) (resp : List BatchEntry) : List BatchEntry :=
  if resp.length = n then resp
  else (List.range n).map (fun i =>
    match resp.find? (fun e => e.index = i) with
    | some e => e
    | none => emptyBatchEntry i)

/-- Claim C8 (against the spec-modelled summarizeBatch repair).  For a
    non-empty batch of n items the repaired output has length exactly n, and
    on a length mismatch each position i below n holds an available response
    entry with index i when one exists and the empty placeholder otherwise. -/
theorem batch_reindex_exact_length (n : Nat) (resp : List BatchEntry) (_hn : 0 < n) :
    (repairBatch n resp).length = n
    ∧ (resp.length ≠ n → ∀ i, i < n →
        ((∃ e ∈ resp, e.index = i) →
          ∃ e ∈ resp, e.index = i ∧ (repairBatch n resp).get? i = some e)
        ∧ ((∀ e ∈ resp, e.index ≠ i) →
          (repairBatch n resp).get? i = some (emptyBatchEntry i))) := by
  constructor
  · rw [repairBatch]
    split
    · assumption
    · simp
  · intro hlen i hi
    have hget : (repairBatch n resp).get? i
        = some (match resp.find? (fun e => e.index = i) with
            | some e => e
            | none => emptyBatchEntry i) := by
      rw [repairBatch, if_neg hlen, List.get?_map, List.get?_range hi]
      rfl
    constructor
    · intro hex
      cases hf : resp.find? (fun e => e.index = i) with
      | some e =>
          refine ⟨e, List.mem_of_find?_eq_some hf, ?_, ?_⟩
          · simpa using List.find?_some hf
          · rw [hget, hf]
      | none =>
          obtain ⟨e, he, hei⟩ := hex
          have := List.find?_eq_none.mp hf e he
          simp [hei] at this
    · intro hnone
      cases hf : resp.find? (fun e => e.index = i) with
      | some e =>
          have hmem := List.mem_of_find?_eq_some hf
          have hei : e.index = i := by simpa using List.find?_some hf
          exact absurd hei (hnone e hmem)
      | none =>
          rw [hget, hf]

/-- Witness for claim C8: a batch of three items answered with one entry for
    index two is repaired to length three, preserving that entry in place. -/
theorem batch_reindex_exact_length_witness :
    (repairBatch 3 [BatchEntry.mk 2 "s2" "i2"]).length = 3
    ∧ (∃ e ∈ [BatchEntry.mk 2 "s2" "i2"], e.index = 2
        ∧ (repairBatch 3 [BatchEntry.mk 2 "s2" "i2"]).get? 2 = some e)
    ∧ (repairBatch 3 [BatchEntry.mk 2 "s2" "i2"]).get? 0 = some (emptyBatchEntry 0) := by
  have h := batch_reindex_exact_length 3 [BatchEntry.mk 2 "s2" "i2"] (by omega)
  refine ⟨h.1, ?_, ?_⟩
  · exact (h.2 (by decide) 2 (by omega)).1 ⟨BatchEntry.mk 2 "s2" "i2", by decide, rfl⟩
  · refine (h.2 (by decide) 0 (by omega)).2 ?_
    intro e he
    have : e = BatchEntry.mk 2 "s2" "i2" := List.mem_singleton.mp he
    rw [this]
    decide

/-- The protected agent roles that may never be removed. -/
def _PROTECTED_ROLES : List String := ["BRIEF", "HR", "MASTER", "DEV", "QA"]

/-- str.split on a separator character, keeping empty segments. -/
def splitSepAux (sep : Char) : List Char → List Char → List (List Char)
  | [], acc => [acc.reverse]
  | c :: rest, acc =>
      if c = sep then acc.reverse :: splitSepAux sep rest []
      else splitSepAux sep rest (c :: acc)

/-- str.split with maxsplit one on a colon: the text before the first colon
    and everything after it, or nothing when no colon occurs (in which case
    the source's two-part check fails). -/
def splitOnceColon (cs : List Char) : Option (List Char × List Char) :=
  let pre := cs.takeWhile (fun c => c ≠ ':')
  match cs.drop pre.length with
  | ':' :: suf => some (pre, suf)
  | _ => none

/-- The role:text pair parsing of the APPROVED_ADD / APPROVED_REMOVE blocks
    in run_brief_hr_org_pipeline: skip the block when empty or 없음, split on
    the pipe, strip each item, require a colon, clean the role name and strip
    the description. -/
def parseRolePairs (raw : String) : List (String × String) :=
  if raw = "" ∨ raw = "없음" then []
  else (splitSepAux '|' raw.data []).filterMap (fun item =>
    match splitOnceColon (pyStripChars item) with
    | some pair => some (clean_role_name (String.mk pair.1), pyStrip (String.mk pair.2))
    | none => none)

/-- A pending_approvals row inserted by the organisation pipeline; the long
    proposed_instruction template and the reason text do not affect which
    roles are registered and are not tracked. -/
structure ApprovalInsert where
  agent_role : String
  needs_dev : Bool
  status : String
deriving DecidableEq

/-- The removal loop of run_brief_hr_org_pipeline: a role in the protected
    set is skipped before any insert, a role not currently present is
    skipped, and any other role is registered as a PENDING removal proposal.
    A raised insert is caught per item and only omits that insert. -/
def processApprovedRemoves (current_roles : List String) (removes : List (String × String))
    (approvals : List ApprovalInsert) : List ApprovalInsert :=
  removes.foldl (fun acc rr =>
    if rr.1 ∈ _PROTECTED_ROLES then acc
    else if rr.1 ∉ current_roles then acc
    else acc ++ [ApprovalInsert.mk rr.1 false "PENDING"]) approvals

theorem processApprovedRemoves_origin (current_roles : List String) :
    ∀ (removes : List (String × String)) (approvals : List ApprovalInsert)
      (a : ApprovalInsert), a ∈ processApprovedRemoves current_roles removes approvals →
      a ∈ approvals ∨ (a.agent_role ∉ _PROTECTED_ROLES ∧ a.agent_role ∈ current_roles) := by
  intro removes
  induction removes with
  | nil => intro approvals a ha; exact Or.inl ha
  | cons rr rest ih =>
      intro approvals a ha
      rw [processApprovedRemoves] at ha
      simp only [List.foldl_cons] at ha
      by_cases hprot : rr.1 ∈ _PROTECTED_ROLES
      · rw [if_pos hprot] at ha
        exact ih approvals a ha
      · rw [if_neg hprot] at ha
        by_cases hcur : rr.1 ∉ current_roles
        · rw [if_pos hcur] at ha
          exact ih approvals a ha
        · rw [if_neg hcur] at ha
          rcases ih _ a ha with hin | hnew
          · rcases List.mem_append.mp hin with h | h
            · exact Or.inl h
            · right
              rw [List.mem_singleton.mp h]
              exact ⟨hprot, not_not.mp hcur⟩
          · exact Or.inr hnew

/-- Claim C10.  Every removal proposal registered by the organisation
    pipeline's removal loop, over any HR decision text, either predates the
    loop or names a role outside the protected set {BRIEF, HR, MASTER, DEV,
    QA} (and currently present): a protected role is skipped before any
    insert into the approvals store. -/
theorem protected_roles_never_removed (current_roles : List String) (raw : String)
    (approvals : List ApprovalInsert) (a : ApprovalInsert)
    (ha : a ∈ processApprovedRemoves current_roles (parseRolePairs raw) approvals) :
    a ∈ approvals ∨ (a.agent_role ∉ _PROTECTED_ROLES ∧ a.agent_role ∈ current_roles) :=
  processApprovedRemoves_origin current_roles (parseRolePairs raw) approvals a ha

/-- Witness for claim C10: from an HR decision approving removal of TEMP and
    of the protected role HR, only the TEMP removal is registered. -/
theorem protected_roles_never_removed_witness :
    (processApprovedRemoves ["TEMP", "HR", "BRIEF"]
        (parseRolePairs "TEMP:low performance|HR:redundant") []
      = [ApprovalInsert.mk "TEMP" false "PENDING"])
    ∧ ((ApprovalInsert.mk "TEMP" false "PENDING") ∈ ([] : List ApprovalInsert)
        ∨ ((ApprovalInsert.mk "TEMP" false "PENDING").agent_role ∉ _PROTECTED_ROLES
          ∧ (ApprovalInsert.mk "TEMP" false "PENDING").agent_role ∈ ["TEMP", "HR", "BRIEF"])) := by
  constructor
  · decide
  · exact protected_roles_never_removed ["TEMP", "HR", "BRIEF"]
      "TEMP:low performance|HR:redundant" []
      (ApprovalInsert.mk "TEMP" false "PENDING") (by decide)
